import Mathlib

/-!
Verification development for the Tau Labs OpenLRS receiver link engine
(flight/PiOS/Common/pios_openlrs.c).

The C module is shallowly embedded: machine integers become Nat with
explicit reductions modulo 2 to the word width where the C code can wrap,
stateful code becomes explicit state passing over a state record mirroring
the device structure together with the file-scope link variables, and the
radio registers are modelled as lists of (address, value) write pairs.
-/

namespace OpenLRS

/-- 2 to the 32: modulus of uint32 arithmetic. -/
def U32 : Nat := 4294967296

/-- 2 to the 16: modulus of uint16 arithmetic. -/
def U16 : Nat := 65536

/-- uint32 subtraction a - b (two-complement wraparound), for a b < U32. -/
def wrapSub (a b : Nat) : Nat := (a + (U32 - b % U32)) % U32

/-- Modelled from the spec: MAXHOPS, the size of the hopchannel array, is
defined in the missing pios_openlrs_priv.h header.  The claims treated here
depend only on the hopchannel list having MAXHOPS entries, not on the
numeric value; the upstream OpenLRSng value 24 is used. -/
def MAXHOPS : Nat := 24

/-- Modelled from the spec: TELEMETRY_PACKETSIZE from the missing openlrs.h
header.  The claims depend only on this being a small constant (no uint32
overflow); the upstream OpenLRSng value 9 is used. -/
def TELEMETRY_PACKETSIZE : Nat := 9

/-- Modelled from the spec: TELEMETRY_MASK bitfield constant from the missing
openlrs.h header (spec section 3.1: flags holds a TELEMETRY_MASK bit group).
Upstream OpenLRSng value 0x18. -/
def TELEMETRY_MASK : Nat := 0x18

/-- Modelled from the spec: DIVERSITY_ENABLED flag bit from the missing
openlrs.h header (spec section 3.1).  Upstream OpenLRSng value 0x80. -/
def DIVERSITY_ENABLED : Nat := 0x80

/-- Modelled from the spec: BINDING_VERSION protocol version byte from the
missing openlrs.h header.  The claims depend only on equality tests against
this constant, not on its numeric value. -/
def BINDING_VERSION : Nat := 0x25

/-- struct bind_data (pios_openlrs_priv.h, persisted and exchanged over the
air).  The hopchannel array is a list of MAXHOPS byte entries. -/
structure BindData where
  version : Nat
  serial_baudrate : Nat
  rf_frequency : Nat
  rf_magic : Nat
  rf_power : Nat
  rf_channel_spacing : Nat
  modem_params : Nat
  flags : Nat
  hopchannel : List Nat
  deriving Repr, DecidableEq

/-- struct rfm22_modem_regs (pios_openlrs.c line 74): baud rate plus the
fifteen modem register values. -/
structure rfm22_modem_regs where
  bps : Nat
  r_1c : Nat
  r_1d : Nat
  r_1e : Nat
  r_20 : Nat
  r_21 : Nat
  r_22 : Nat
  r_23 : Nat
  r_24 : Nat
  r_25 : Nat
  r_2a : Nat
  r_6e : Nat
  r_6f : Nat
  r_70 : Nat
  r_71 : Nat
  r_72 : Nat
  deriving Repr, DecidableEq

/-- The five-entry modem parameter table modem_params[] (pios_openlrs.c
lines 77-83). -/
def modem_params : List rfm22_modem_regs :=
  [ ⟨4800, 0x1a, 0x40, 0x0a, 0xa1, 0x20, 0x4e, 0xa5, 0x00, 0x1b, 0x1e, 0x27, 0x52, 0x2c, 0x23, 0x30⟩,
    ⟨9600, 0x05, 0x40, 0x0a, 0xa1, 0x20, 0x4e, 0xa5, 0x00, 0x20, 0x24, 0x4e, 0xa5, 0x2c, 0x23, 0x30⟩,
    ⟨19200, 0x06, 0x40, 0x0a, 0xd0, 0x00, 0x9d, 0x49, 0x00, 0x7b, 0x28, 0x9d, 0x49, 0x2c, 0x23, 0x30⟩,
    ⟨57600, 0x05, 0x40, 0x0a, 0x45, 0x01, 0xd7, 0xdc, 0x03, 0xb8, 0x1e, 0x0e, 0xbf, 0x00, 0x23, 0x2e⟩,
    ⟨125000, 0x8a, 0x40, 0x0a, 0x60, 0x01, 0x55, 0x55, 0x02, 0xad, 0x1e, 0x20, 0x00, 0x00, 0x23, 0xc8⟩ ]

/-- Bounds-checked access to the modem parameter table: some row when the
index is in bounds, none for the out-of-bounds reads of the C code. -/
def modemParamsLookup (i : Nat) : Option rfm22_modem_regs :=
  modem_params.get? i

/-- pktsizes[8] (pios_openlrs.c line 85). -/
def pktsizes : List Nat := [0, 7, 11, 12, 16, 17, 21, 0]

/-- getPacketSize (pios_openlrs.c line 107): pktsizes[bd->flags & 0x07]. -/
def getPacketSize (bd : BindData) : Nat :=
  pktsizes.getD (bd.flags &&& 0x07) 0

/-- Macro BYTES_AT_BAUD_TO_USEC (pios_openlrs.c line 117):
(uint32)((bytes) + (div?20:15)) * 8200000L / (uint32)(bps), computed in
uint32 arithmetic.  div is the masked flag value, tested against zero as
in C. -/
def BYTES_AT_BAUD_TO_USEC (bytes bps div : Nat) : Nat :=
  ((bytes + (if div ≠ 0 then 20 else 15)) % U32 * 8200000) % U32 / bps

/-- getInterval (pios_openlrs.c lines 112-136), on the in-bounds modem
table row.  The out-of-bounds table read for modem_params >= 5 has no
defined C semantics; rows beyond the table contribute baud 0 here and the
theorems about getInterval carry the in-bounds precondition. -/
def getInterval (bd : BindData) : Nat :=
  let bps := ((modemParamsLookup bd.modem_params).map rfm22_modem_regs.bps).getD 0
  let ret := (BYTES_AT_BAUD_TO_USEC (getPacketSize bd) bps (bd.flags &&& DIVERSITY_ENABLED) + 2000) % U32
  let ret := if bd.flags &&& TELEMETRY_MASK ≠ 0 then
      (ret + (BYTES_AT_BAUD_TO_USEC TELEMETRY_PACKETSIZE bps (bd.flags &&& DIVERSITY_ENABLED) + 1000)) % U32
    else ret
  ((ret + 999) % U32 / 1000) * 1000

/-- The group loop of unpackChannels (pios_openlrs.c lines 141-148): n
iterations, each decoding four channels from five payload bytes and then
advancing the payload pointer by five. -/
def unpackGroups : Nat → List Nat → List Nat
  | 0, _ => []
  | Nat.succ n, p =>
      [ ((p.getD 4 0 &&& 0x03) <<< 8) + p.getD 0 0,
        ((p.getD 4 0 &&& 0x0c) <<< 6) + p.getD 1 0,
        ((p.getD 4 0 &&& 0x30) <<< 4) + p.getD 2 0,
        ((p.getD 4 0 &&& 0xc0) <<< 2) + p.getD 3 0 ]
      ++ unpackGroups n (p.drop 5)

/-- unpackChannels (pios_openlrs.c lines 138-155).  The loop runs for
i = 0 .. config/2 inclusive, hence config/2 + 1 groups; when config is odd
one further byte (at offset 5 * (config/2 + 1)) yields four coarse
channels using shifts 6, 4, 2, 0. -/
def unpackChannels (config : Nat) (p : List Nat) : List Nat :=
  unpackGroups (config / 2 + 1) p ++
  (if config &&& 1 = 1 then
    [ (((p.drop (5 * (config / 2 + 1))).getD 0 0 >>> 6) &&& 3) * 333 + 12,
      (((p.drop (5 * (config / 2 + 1))).getD 0 0 >>> 4) &&& 3) * 333 + 12,
      (((p.drop (5 * (config / 2 + 1))).getD 0 0 >>> 2) &&& 3) * 333 + 12,
      (((p.drop (5 * (config / 2 + 1))).getD 0 0 >>> 0) &&& 3) * 333 + 12 ]
  else [])

/-- The group decoding exactly as the words of claim C3 state it: n groups
with n = (flags and 7)/2, channel k of a group being
((byte4 shifted right by 2k) and 3) shifted left by 8, or-ed with byte k. -/
def claimedGroups : Nat → List Nat → List Nat
  | 0, _ => []
  | Nat.succ n, p =>
      [ (((p.getD 4 0 >>> 0) &&& 3) <<< 8) ||| p.getD 0 0,
        (((p.getD 4 0 >>> 2) &&& 3) <<< 8) ||| p.getD 1 0,
        (((p.getD 4 0 >>> 4) &&& 3) <<< 8) ||| p.getD 2 0,
        (((p.getD 4 0 >>> 6) &&& 3) <<< 8) ||| p.getD 3 0 ]
      ++ claimedGroups n (p.drop 5)

/-- The decode function exactly as the words of claim C3 state it:
n = config/2 groups, and when config is odd a trailing byte decodes
channel k as ((byte shifted right by 2k) and 3) * 333 + 12. -/
def unpackChannels_claimed (config : Nat) (p : List Nat) : List Nat :=
  claimedGroups (config / 2) p ++
  (if config &&& 1 = 1 then
    [ (((p.drop (5 * (config / 2))).getD 0 0 >>> 0) &&& 3) * 333 + 12,
      (((p.drop (5 * (config / 2))).getD 0 0 >>> 2) &&& 3) * 333 + 12,
      (((p.drop (5 * (config / 2))).getD 0 0 >>> 4) &&& 3) * 333 + 12,
      (((p.drop (5 * (config / 2))).getD 0 0 >>> 6) &&& 3) * 333 + 12 ]
  else [])

/-- Claim C3 amended: the group count is config/2 + 1 (the C loop bound is
inclusive) and the coarse trailing byte (taken at offset 5*(config/2 + 1))
decodes channel k with shift 6 - 2k; the per-channel group formula of the
claim is kept. -/
def unpackChannels_amended (config : Nat) (p : List Nat) : List Nat :=
  claimedGroups (config / 2 + 1) p ++
  (if config &&& 1 = 1 then
    [ (((p.drop (5 * (config / 2 + 1))).getD 0 0 >>> 6) &&& 3) * 333 + 12,
      (((p.drop (5 * (config / 2 + 1))).getD 0 0 >>> 4) &&& 3) * 333 + 12,
      (((p.drop (5 * (config / 2 + 1))).getD 0 0 >>> 2) &&& 3) * 333 + 12,
      (((p.drop (5 * (config / 2 + 1))).getD 0 0 >>> 0) &&& 3) * 333 + 12 ]
  else [])

/-- enum RFMode (pios_openlrs_priv.h): the radio mode flag shared between
the task body and the interrupt handler. -/
inductive RFMode where
  | Available
  | Transmit
  | Transmitted
  | Receive
  | Received
  deriving Repr, DecidableEq

/-- The engine state: the fields of struct pios_openlrs_dev that the link
engine reads or writes, together with the file-scope link variables of
pios_openlrs.c lines 554-567 (hopcount, lastPacketTimeUs,
numberOfLostPackets, linkQuality, RSSI aggregators, willhop,
linkLossTimeMs, nextBeaconTimeMs, irqs). -/
structure EngineState where
  rf_mode : RFMode
  rf_channel : Nat
  link_acquired : Bool
  bind_data : BindData
  rx_buf : List Nat
  ppm : List Nat
  hopcount : Nat
  lastPacketTimeUs : Nat
  numberOfLostPackets : Nat
  linkQuality : Nat
  lastAFCCvalue : Nat
  lastRSSITimeUs : Nat
  lastRSSIvalue : Nat
  RSSI_sum : Nat
  RSSI_count : Nat
  smoothRSSI : Nat
  willhop : Bool
  linkLossTimeMs : Nat
  nextBeaconTimeMs : Nat
  irqs : Nat
  deriving Repr, DecidableEq

/-- The environment observations one pios_openlrs_rx_loop iteration makes:
the two micros() readings, the millis() reading, the register 0x0C lockup
probe, the FIFO contents, the AFC reading and the RSSI register. -/
structure RxInput where
  lockup : Bool
  drainTimeUs : Nat
  timeUs : Nat
  timeMs : Nat
  afc : Nat
  rssi : Nat
  packet : List Nat
  deriving Repr, DecidableEq

/-- The drain-on-received block of pios_openlrs_rx_loop (lines 746-900):
read the FIFO into rx_buf, record AFC, stamp lastPacketTimeUs with the
micros() value captured at drain, clear the loss counter, shift a 1 into
linkQuality, decode PPM for servo frames, set link_acquired, re-arm
receive and request a hop.  The lockup probe (line 738) only rewrites
radio registers and so changes no modelled field. -/
def receiveStep (s : EngineState) (inp : RxInput) : EngineState :=
  if s.rf_mode = RFMode.Received then
    let s1 := { s with
      rx_buf := inp.packet,
      lastAFCCvalue := inp.afc,
      lastPacketTimeUs := inp.drainTimeUs % U32,
      numberOfLostPackets := 0,
      linkQuality := ((s.linkQuality <<< 1) % U16) ||| 1,
      link_acquired := true,
      rf_mode := RFMode.Receive,
      willhop := true }
    if inp.packet.getD 0 0 &&& 0x3e = 0 then
      { s1 with ppm := unpackChannels (s.bind_data.flags &&& 7) (inp.packet.drop 1) }
    else s1
  else s

/-- The RSSI sampling block of pios_openlrs_rx_loop (lines 905-925):
when fewer than two packets are lost, this lastPacketTimeUs has not been
sampled yet, and more than interval - 1500 microseconds have elapsed,
read RSSI and accumulate; once the incremented count exceeds 8, replace
the sum by the average, fold it into smoothRSSI and clear the
accumulator. -/
def rssiStep (s : EngineState) (inp : RxInput) : EngineState :=
  if s.numberOfLostPackets < 2 ∧ s.lastRSSITimeUs ≠ s.lastPacketTimeUs ∧
      wrapSub (inp.timeUs % U32) s.lastPacketTimeUs > wrapSub (getInterval s.bind_data) 1500 then
    let sum1 := (s.RSSI_sum + inp.rssi) % U16
    let cnt1 := (s.RSSI_count + 1) % 256
    if cnt1 > 8 then
      { s with
        lastRSSITimeUs := s.lastPacketTimeUs,
        lastRSSIvalue := inp.rssi,
        RSSI_sum := 0,
        RSSI_count := 0,
        smoothRSSI := ((s.smoothRSSI * 3 + (sum1 / cnt1) * 1) / 4) % 256 }
    else
      { s with
        lastRSSITimeUs := s.lastPacketTimeUs,
        lastRSSIvalue := inp.rssi,
        RSSI_sum := sum1,
        RSSI_count := cnt1 }
  else s

/-- The loss and slow-hop block of pios_openlrs_rx_loop (lines 927-981).
Once the link is acquired: a miss is recorded while fewer than hopcount
packets are lost and more than interval + 1000 microseconds have elapsed;
when exactly hopcount packets are lost and a full hopcount worth of
intervals has elapsed the engine enters search mode.  Before acquisition
it slow-hops once per hopcount intervals. -/
def lossStep (s : EngineState) (inp : RxInput) : EngineState :=
  let interval := getInterval s.bind_data
  if s.link_acquired then
    if s.numberOfLostPackets < s.hopcount ∧
        wrapSub (inp.timeUs % U32) s.lastPacketTimeUs > (interval + 1000) % U32 then
      { s with
        linkQuality := (s.linkQuality <<< 1) % U16,
        willhop := true,
        linkLossTimeMs := if s.numberOfLostPackets = 0 then inp.timeMs else s.linkLossTimeMs,
        nextBeaconTimeMs := if s.numberOfLostPackets = 0 then 0 else s.nextBeaconTimeMs,
        numberOfLostPackets := (s.numberOfLostPackets + 1) % U32,
        lastPacketTimeUs := (s.lastPacketTimeUs + interval) % U32 }
    else if s.numberOfLostPackets = s.hopcount ∧
        wrapSub (inp.timeUs % U32) s.lastPacketTimeUs > (interval * s.hopcount) % U32 then
      { s with
        linkQuality := 0,
        willhop := true,
        smoothRSSI := 0,
        lastPacketTimeUs := inp.timeUs % U32 }
    else s
  else
    if wrapSub (inp.timeUs % U32) s.lastPacketTimeUs > (interval * s.hopcount) % U32 then
      { s with lastPacketTimeUs := inp.timeUs % U32, willhop := true }
    else s

/-- The hop block of pios_openlrs_rx_loop (lines 983-1005): when willhop
is set, advance rf_channel by one and wrap to 0 on reaching MAXHOPS or a
zero hopchannel entry, then clear willhop. -/
def hopStep (s : EngineState) : EngineState :=
  if s.willhop then
    let ch := (s.rf_channel + 1) % 256
    let ch := if ch = MAXHOPS ∨ s.bind_data.hopchannel.getD ch 0 = 0 then 0 else ch
    { s with rf_channel := ch, willhop := false }
  else s

/-- One iteration of pios_openlrs_rx_loop (lines 729-1006): drain a
received packet, sample RSSI, run the loss bookkeeping, then hop. -/
def rxLoopStep (s : EngineState) (inp : RxInput) : EngineState :=
  hopStep (lossStep (rssiStep (receiveStep s inp) inp) inp)

/-- countHops: the hopchannel counting loop of pios_openlrs_setup (lines
714-717): the number of entries before the first zero, capped at
MAXHOPS. -/
def countHops (hl : List Nat) : Nat :=
  ((hl.take MAXHOPS).takeWhile (fun b => b != 0)).length

/-- The state effects of pios_openlrs_setup (lines 694-727) after an
optional bind: rf_channel 0, hopcount counted from the hop list, receive
mode, link_acquired cleared, lastPacketTimeUs stamped with micros(). -/
def setupStep (s : EngineState) (startTimeUs : Nat) : EngineState :=
  { s with
    rf_channel := 0,
    hopcount := countHops s.bind_data.hopchannel,
    rf_mode := RFMode.Receive,
    link_acquired := false,
    lastPacketTimeUs := startTimeUs % U32 }

/-- PIOS_OpenLRS_EXT_Int (pios_openlrs.c lines 1147-1164): the interrupt
entry point increments the irqs counter and flips rf_mode from Transmit
to Transmitted or from Receive to Received; it performs no SPI access
(modelled as a pure state function with no register-write output). -/
def PIOS_OpenLRS_EXT_Int (s : EngineState) : EngineState :=
  let s := { s with irqs := (s.irqs + 1) % U32 }
  if s.rf_mode = RFMode.Transmit then
    { s with rf_mode := RFMode.Transmitted }
  else if s.rf_mode = RFMode.Receive then
    { s with rf_mode := RFMode.Received }
  else s

/-- Outcome of handling one received packet inside
pios_openlrs_bind_receive: the resulting bind_data field, the transmitted
acknowledgement byte if any, the block handed to the persistent store if
any, and whether the function returns 1 (success) or keeps listening. -/
structure BindReceiveResult where
  bind_data : BindData
  ackByte : Option Nat
  persisted : Option BindData
  accepted : Bool
  deriving Repr, DecidableEq

/-- The packet handling of pios_openlrs_bind_receive (pios_openlrs.c lines
601-669).  When the first FIFO byte is 98 (character b) the following
sizeof(struct bind_data) bytes are burst-read directly into the bind_data
field of the device structure (lines 611-612) before any version test;
only then is the version compared against BINDING_VERSION (line 638).  On
a match the one-byte acknowledgement 66 (character B) is transmitted, the
block is persisted through OpenLRSSet/UAVObjSave, and 1 is returned; on a
mismatch nothing is sent or persisted and the loop keeps listening, but
bind_data already holds the received block. -/
def bindPacketStep (bd : BindData) (firstByte : Nat) (blk : BindData) : BindReceiveResult :=
  if firstByte = 98 then
    if blk.version = BINDING_VERSION then
      { bind_data := blk, ackByte := some 66, persisted := some blk, accepted := true }
    else
      { bind_data := blk, ackByte := none, persisted := none, accepted := false }
  else
    { bind_data := bd, ackByte := none, persisted := none, accepted := false }

/-- Modelled from the spec: register 0x75 band-select constants from the
missing pios_rfm22b_regs.h header.  The spec golden value for 433.92 MHz,
register 0x75 = 0x53 with fb = 19, fixes the sideband-select bit at 0x40
and the band mask at 0x1F; 0x20 is the high-band-select bit. -/
def RFM22_fbs_sbse : Nat := 0x40

/-- Modelled from the spec: high band select bit of register 0x75. -/
def RFM22_fbs_hbsel : Nat := 0x20

/-- Modelled from the spec: frequency band mask of register 0x75. -/
def RFM22_fb_mask : Nat := 0x1F

/-- The band select bit computed by rfmSetCarrierFrequency
(pios_openlrs.c lines 233-241): 0 below 480 MHz, 1 otherwise. -/
def carrier_hbsel (f : Nat) : Nat :=
  if f < 480000000 then 0 else 1

/-- The integer band register value fb of rfmSetCarrierFrequency: the C
code computes f / step - 24 in uint32 arithmetic and stores it in a
uint16. -/
def carrier_fb (f : Nat) : Nat :=
  if f < 480000000 then
    ((f / 10000000 + (U32 - 24)) % U32) % U16
  else
    ((f / 20000000 + (U32 - 24)) % U32) % U16

/-- The fractional carrier register value fc of rfmSetCarrierFrequency:
(f - (fb + 24) * step) * 4 / 625 below 480 MHz and
(f - (fb + 24) * step) * 2 / 625 above, in uint32 arithmetic, stored in a
uint16. -/
def carrier_fc (f : Nat) : Nat :=
  if f < 480000000 then
    ((wrapSub (f % U32) ((carrier_fb f + 24) * 10000000 % U32) * 4) % U32 / 625) % U16
  else
    ((wrapSub (f % U32) ((carrier_fb f + 24) * 20000000 % U32) * 2) % U32 / 625) % U16

/-- rfmSetCarrierFrequency (pios_openlrs.c lines 229-247), modelled as the
list of (address, value) register writes it performs: register 0x75 gets
the band select byte, 0x76 the high byte of fc and 0x77 the low byte. -/
def rfmSetCarrierFrequency (f : Nat) : List (Nat × Nat) :=
  [ (0x75, (RFM22_fbs_sbse + (if carrier_hbsel f ≠ 0 then RFM22_fbs_hbsel else 0)
            + (carrier_fb f &&& RFM22_fb_mask)) % 256),
    (0x76, (carrier_fc f >>> 8) % 256),
    (0x77, carrier_fc f &&& 0xff) ]

/-- A well-formed operational bind configuration used as a concrete
fixture: modem row 0 (4800 bps), flags 1 (7-byte packets, one PPM group
plus a coarse byte, no telemetry, no diversity), three hop channels. -/
def bdFix : BindData :=
  { version := BINDING_VERSION, serial_baudrate := 115200,
    rf_frequency := 435000000, rf_magic := 0x12345678, rf_power := 4,
    rf_channel_spacing := 5, modem_params := 0, flags := 1,
    hopchannel := [22, 11, 33] ++ List.replicate 21 0 }

/-- A bind block whose version does not match BINDING_VERSION. -/
def blkMismatch : BindData :=
  { version := BINDING_VERSION + 1, serial_baudrate := 9600,
    rf_frequency := 434000000, rf_magic := 0xCAFE1234, rf_power := 7,
    rf_channel_spacing := 6, modem_params := 2, flags := 2,
    hopchannel := [5, 9, 14] ++ List.replicate 21 0 }

/-- A bind block with a matching version. -/
def blkGood : BindData :=
  { version := BINDING_VERSION, serial_baudrate := 57600,
    rf_frequency := 433500000, rf_magic := 0xFEEDF00D, rf_power := 3,
    rf_channel_spacing := 5, modem_params := 1, flags := 5,
    hopchannel := [7, 3, 12, 19] ++ List.replicate 20 0 }

/-- A bind block with a matching version but an out-of-bounds modem table
index. -/
def blkOOB : BindData :=
  { version := BINDING_VERSION, serial_baudrate := 57600,
    rf_frequency := 433500000, rf_magic := 0xFEEDF00D, rf_power := 3,
    rf_channel_spacing := 5, modem_params := 5, flags := 5,
    hopchannel := [7, 3, 12, 19] ++ List.replicate 20 0 }

/-- A concrete engine state in Available mode used to exercise the
interrupt entry point. -/
def sAvail : EngineState :=
  { rf_mode := RFMode.Available, rf_channel := 0, link_acquired := false,
    bind_data := bdFix, rx_buf := [], ppm := [], hopcount := 3,
    lastPacketTimeUs := 0, numberOfLostPackets := 0, linkQuality := 0,
    lastAFCCvalue := 0, lastRSSITimeUs := 0, lastRSSIvalue := 0,
    RSSI_sum := 0, RSSI_count := 0, smoothRSSI := 0, willhop := false,
    linkLossTimeMs := 0, nextBeaconTimeMs := 0, irqs := 0 }

/-- A concrete engine state with the link acquired, no pending packet,
clock references at zero: fixture for the scheduler theorems. -/
def sLinked : EngineState :=
  { rf_mode := RFMode.Receive, rf_channel := 1, link_acquired := true,
    bind_data := bdFix, rx_buf := [], ppm := [], hopcount := 3,
    lastPacketTimeUs := 0, numberOfLostPackets := 0, linkQuality := 0x7fff,
    lastAFCCvalue := 0, lastRSSITimeUs := 1, lastRSSIvalue := 0,
    RSSI_sum := 0, RSSI_count := 0, smoothRSSI := 100, willhop := false,
    linkLossTimeMs := 0, nextBeaconTimeMs := 0, irqs := 0 }

/-- An input for one scheduler iteration: 50000 microseconds elapsed since
the last packet (the bdFix interval is 40000), no packet pending. -/
def inpMiss : RxInput :=
  { lockup := false, drainTimeUs := 0, timeUs := 50000, timeMs := 50,
    afc := 0, rssi := 0, packet := [] }

/-- An input for one scheduler iteration early in the interval: 39000
microseconds elapsed, inside the RSSI tail window of the 40000 interval
but before the miss deadline of 41000. -/
def inpRssi : RxInput :=
  { lockup := false, drainTimeUs := 0, timeUs := 39000, timeMs := 39,
    afc := 0, rssi := 100, packet := [] }

/-- A linked state whose RSSI accumulator already holds seven samples. -/
def sRssi7 : EngineState :=
  { sLinked with RSSI_count := 7, RSSI_sum := 700 }

/-- The interval computation exactly as the words of claim C2 state it, in
unbounded integer arithmetic: bytes_to_usec(packet size, bps, diversity)
plus 2000 (plus bytes_to_usec(TELEMETRY_PACKETSIZE, bps, diversity) plus
1000 when the TELEMETRY flag is set), rounded up to the next multiple of
1000 microseconds. -/
def getInterval_claim (bd : BindData) : Nat :=
  let bps := ((modemParamsLookup bd.modem_params).map rfm22_modem_regs.bps).getD 0
  let d := if bd.flags &&& DIVERSITY_ENABLED ≠ 0 then 20 else 15
  let base := (getPacketSize bd + d) * 8200000 / bps + 2000
  let tot := if bd.flags &&& TELEMETRY_MASK ≠ 0 then
      base + ((TELEMETRY_PACKETSIZE + d) * 8200000 / bps + 1000)
    else base
  ((tot + 999) / 1000) * 1000

/-! ## Helper lemmas -/

theorem getD_lt_256 (p : List Nat) (i : Nat) (hp : ∀ b ∈ p, b < 256) :
    p.getD i 0 < 256 := by
  by_cases h : i < p.length
  · rw [List.getD_eq_getElem p 0 h]
    exact hp _ (List.getElem_mem h)
  · rw [List.getD_eq_default p 0 (Nat.le_of_not_lt h)]
    norm_num

theorem forall_lt_256_drop (p : List Nat) (k : Nat) (hp : ∀ b ∈ p, b < 256) :
    ∀ b ∈ p.drop k, b < 256 :=
  fun b hb => hp b (List.mem_of_mem_drop hb)

set_option maxRecDepth 4096 in
theorem and_mask_shift_2 : ∀ x < 256, (x &&& 0x0c) <<< 6 = ((x >>> 2) &&& 3) <<< 8 := by
  decide

set_option maxRecDepth 4096 in
theorem and_mask_shift_4 : ∀ x < 256, (x &&& 0x30) <<< 4 = ((x >>> 4) &&& 3) <<< 8 := by
  decide

set_option maxRecDepth 4096 in
theorem and_mask_shift_6 : ∀ x < 256, (x &&& 0xc0) <<< 2 = ((x >>> 6) &&& 3) <<< 8 := by
  decide

set_option maxRecDepth 8192 in
theorem shift8_add_eq_or : ∀ z < 4, ∀ y < 256, (z <<< 8) + y = (z <<< 8) ||| y := by
  decide

theorem and3_lt_4 (x : Nat) : x &&& 3 < 4 :=
  Nat.lt_succ_of_le (Nat.and_le_right)

theorem unpackGroups_eq_claimedGroups (n : Nat) (p : List Nat)
    (hp : ∀ b ∈ p, b < 256) : unpackGroups n p = claimedGroups n p := by
  induction n generalizing p with
  | zero => rfl
  | succ n ih =>
    have hb4 : p.getD 4 0 < 256 := getD_lt_256 p 4 hp
    have hb0 : p.getD 0 0 < 256 := getD_lt_256 p 0 hp
    have hb1 : p.getD 1 0 < 256 := getD_lt_256 p 1 hp
    have hb2 : p.getD 2 0 < 256 := getD_lt_256 p 2 hp
    have hb3 : p.getD 3 0 < 256 := getD_lt_256 p 3 hp
    show _ ++ unpackGroups n (p.drop 5) = _ ++ claimedGroups n (p.drop 5)
    rw [ih (p.drop 5) (forall_lt_256_drop p 5 hp)]
    congr 1
    rw [Nat.shiftRight_zero,
      and_mask_shift_2 _ hb4, and_mask_shift_4 _ hb4, and_mask_shift_6 _ hb4,
      shift8_add_eq_or _ (and3_lt_4 _) _ hb0,
      shift8_add_eq_or _ (and3_lt_4 _) _ hb1,
      shift8_add_eq_or _ (and3_lt_4 _) _ hb2,
      shift8_add_eq_or _ (and3_lt_4 _) _ hb3]

/-! ## Claim theorems -/

/-- C3 counterexample: at config = 1 with payload [1,0,0,0,0,64] the code
decodes two groups worth of output (one 5-byte group plus the coarse
byte at offset 5, with shifts 6,4,2,0), while the claim as stated decodes
zero groups and takes the coarse byte at offset 0 with shifts 0,2,4,6;
the results differ. -/
theorem c3_counterexample :
    unpackChannels 1 [1, 0, 0, 0, 0, 64] ≠ unpackChannels_claimed 1 [1, 0, 0, 0, 0, 64] := by
  decide

/-- C3 amended: for every config value flags and 7 in one to six and every
byte-valued payload, unpackChannels decodes n = (flags and 7)/2 + 1 groups
of four channels (the C loop bound is inclusive), each channel k of a
group being ((byte4 shifted right by 2k) and 3) shifted left 8, or byte k;
when config is odd, the trailing byte at offset 5n decodes 4 coarse
channels with channel k = ((byte shifted right by 6 - 2k) and 3)*333+12. -/
theorem c3_theorem (config : Nat) (p : List Nat)
    (hc1 : 1 ≤ config) (hc2 : config ≤ 6) (hp : ∀ b ∈ p, b < 256) :
    unpackChannels config p = unpackChannels_amended config p := by
  unfold unpackChannels unpackChannels_amended
  rw [unpackGroups_eq_claimedGroups _ _ hp]

/-- C3 witness: the amended statement instantiated at config 1 and the
payload of the counterexample. -/
theorem c3_witness :
    unpackChannels 1 [1, 0, 0, 0, 0, 64] = unpackChannels_amended 1 [1, 0, 0, 0, 0, 64] :=
  c3_theorem 1 [1, 0, 0, 0, 0, 64] (by decide) (by decide) (by decide)

/-- C9: for every uint32 frequency at or above 240 MHz, set_carrier
selects hbsel = 0 below the 480 MHz threshold and hbsel = 1 otherwise,
computes fb = f / (10000000 * (1 + hbsel)) - 24 and
fc = (f - (fb + 24) * step) * (4 / (1 + hbsel)) / 625 in exact integer
arithmetic (step being 10 MHz or 20 MHz), and writes register 0x75 with
the sideband select bit, the high band select bit when hbsel = 1, and fb;
0x76 with the fc high byte; and 0x77 with the fc low byte.  Instantiated
at 433920000 Hz this gives fb 19, fc 25088 and the registers 0x53, 0x62,
0x00, and at 915000000 Hz fb 21, fc 48000 and the registers 0x75, 0xbb,
0x80 (see the witness). -/
theorem c9_theorem (f : Nat) (h1 : 240000000 ≤ f) (h2 : f < U32) :
    (f < 480000000 →
      carrier_hbsel f = 0 ∧
      carrier_fb f = f / 10000000 - 24 ∧
      carrier_fc f = (f - (f / 10000000) * 10000000) * 4 / 625 ∧
      rfmSetCarrierFrequency f =
        [ (0x75, RFM22_fbs_sbse + (carrier_fb f &&& RFM22_fb_mask)),
          (0x76, carrier_fc f >>> 8),
          (0x77, carrier_fc f &&& 0xff) ]) ∧
    (480000000 ≤ f →
      carrier_hbsel f = 1 ∧
      carrier_fb f = f / 20000000 - 24 ∧
      carrier_fc f = (f - (f / 20000000) * 20000000) * 2 / 625 ∧
      rfmSetCarrierFrequency f =
        [ (0x75, RFM22_fbs_sbse + RFM22_fbs_hbsel + (carrier_fb f &&& RFM22_fb_mask)),
          (0x76, carrier_fc f >>> 8),
          (0x77, carrier_fc f &&& 0xff) ]) := by
  have h2n : f < 4294967296 := by simpa [U32] using h2
  constructor
  · intro hlow
    have hhb : carrier_hbsel f = 0 := by simp [carrier_hbsel, hlow]
    have hq1 : 24 ≤ f / 10000000 := by omega
    have hq2 : f / 10000000 < 48 := by omega
    have hfb : carrier_fb f = f / 10000000 - 24 := by
      simp only [carrier_fb, if_pos hlow, U32, U16]
      omega
    have hfc : carrier_fc f = (f - (f / 10000000) * 10000000) * 4 / 625 := by
      have hq3 : f / 10000000 - 24 + 24 = f / 10000000 := Nat.sub_add_cancel hq1
      have hle : (f / 10000000) * 10000000 ≤ f := Nat.div_mul_le_self f 10000000
      have hflt : f % U32 = f := Nat.mod_eq_of_lt (by simp only [U32]; omega)
      have hplt : (f / 10000000) * 10000000 % U32 = (f / 10000000) * 10000000 :=
        Nat.mod_eq_of_lt (by simp only [U32]; omega)
      simp only [carrier_fc, if_pos hlow, hfb, hq3, wrapSub, hflt, hplt]
      have hkey : (f + (U32 - (f / 10000000) * 10000000)) % U32
          = f - (f / 10000000) * 10000000 := by
        simp only [U32]
        omega
      rw [hkey]
      have hr : f - (f / 10000000) * 10000000 < 10000000 := by omega
      have h4b : (f - (f / 10000000) * 10000000) * 4 < U32 := by
        simp only [U32]
        omega
      have h625 : (f - (f / 10000000) * 10000000) * 4 / 625 < U16 := by
        simp only [U16]
        omega
      rw [Nat.mod_eq_of_lt h4b, Nat.mod_eq_of_lt h625]
    have hfc_lt : carrier_fc f < 65536 := by
      rw [hfc]
      have hle : (f / 10000000) * 10000000 ≤ f := Nat.div_mul_le_self f 10000000
      omega
    refine ⟨hhb, hfb, hfc, ?_⟩
    simp only [rfmSetCarrierFrequency, hhb, ne_eq, not_true_eq_false, if_neg,
      not_false_iff, ite_false, Nat.add_zero]
    have hfbmask : carrier_fb f &&& RFM22_fb_mask ≤ 31 := Nat.and_le_right
    have h75 : RFM22_fbs_sbse + (carrier_fb f &&& RFM22_fb_mask) < 256 := by
      simp only [RFM22_fbs_sbse, RFM22_fb_mask] at *
      omega
    have h76 : carrier_fc f >>> 8 < 256 := by
      rw [Nat.shiftRight_eq_div_pow]
      omega
    rw [Nat.mod_eq_of_lt h75, Nat.mod_eq_of_lt h76]
  · intro hhigh
    have hnlow : ¬ f < 480000000 := by omega
    have hhb : carrier_hbsel f = 1 := by simp [carrier_hbsel, hnlow]
    have hq1 : 24 ≤ f / 20000000 := by omega
    have hq2 : f / 20000000 ≤ 214 := by omega
    have hfb : carrier_fb f = f / 20000000 - 24 := by
      simp only [carrier_fb, if_neg hnlow, U32, U16]
      omega
    have hfc : carrier_fc f = (f - (f / 20000000) * 20000000) * 2 / 625 := by
      have hq3 : f / 20000000 - 24 + 24 = f / 20000000 := Nat.sub_add_cancel hq1
      have hle : (f / 20000000) * 20000000 ≤ f := Nat.div_mul_le_self f 20000000
      have hflt : f % U32 = f := Nat.mod_eq_of_lt h2
      have hplt : (f / 20000000) * 20000000 % U32 = (f / 20000000) * 20000000 :=
        Nat.mod_eq_of_lt (by simp only [U32]; omega)
      simp only [carrier_fc, if_neg hnlow, hfb, hq3, wrapSub, hflt, hplt]
      have hkey : (f + (U32 - (f / 20000000) * 20000000)) % U32
          = f - (f / 20000000) * 20000000 := by
        simp only [U32]
        omega
      rw [hkey]
      have hr : f - (f / 20000000) * 20000000 < 20000000 := by omega
      have h2b : (f - (f / 20000000) * 20000000) * 2 < U32 := by
        simp only [U32]
        omega
      have h625 : (f - (f / 20000000) * 20000000) * 2 / 625 < U16 := by
        simp only [U16]
        omega
      rw [Nat.mod_eq_of_lt h2b, Nat.mod_eq_of_lt h625]
    have hfc_lt : carrier_fc f < 65536 := by
      rw [hfc]
      have hle : (f / 20000000) * 20000000 ≤ f := Nat.div_mul_le_self f 20000000
      omega
    refine ⟨hhb, hfb, hfc, ?_⟩
    simp only [rfmSetCarrierFrequency, hhb, ne_eq, one_ne_zero, not_false_iff,
      ite_true, if_pos]
    have hfbmask : carrier_fb f &&& RFM22_fb_mask ≤ 31 := Nat.and_le_right
    have h75 : RFM22_fbs_sbse + RFM22_fbs_hbsel + (carrier_fb f &&& RFM22_fb_mask) < 256 := by
      simp only [RFM22_fbs_sbse, RFM22_fbs_hbsel, RFM22_fb_mask] at *
      omega
    have h76 : carrier_fc f >>> 8 < 256 := by
      rw [Nat.shiftRight_eq_div_pow]
      omega
    rw [Nat.mod_eq_of_lt h75, Nat.mod_eq_of_lt h76]

/-- C9 witness: the theorem applied in the low band at 433.92 MHz (the
golden registers 0x53, 0x62, 0x00 with fb 19, fc 25088, hbsel 0) and in
the high band at 915 MHz (registers 0x75, 0xbb, 0x80 with fb 21,
fc 48000, hbsel 1). -/
theorem c9_witness :
    carrier_hbsel 433920000 = 0 ∧ carrier_fb 433920000 = 19 ∧
    carrier_fc 433920000 = 25088 ∧
    rfmSetCarrierFrequency 433920000 = [(0x75, 0x53), (0x76, 0x62), (0x77, 0x00)] ∧
    carrier_hbsel 915000000 = 1 ∧ carrier_fb 915000000 = 21 ∧
    carrier_fc 915000000 = 48000 ∧
    rfmSetCarrierFrequency 915000000 = [(0x75, 0x75), (0x76, 0xbb), (0x77, 0x80)] := by
  have hlow := (c9_theorem 433920000 (by norm_num) (by norm_num [U32])).1 (by norm_num)
  have hhigh := (c9_theorem 915000000 (by norm_num) (by norm_num [U32])).2 (by norm_num)
  exact ⟨hlow.1, by decide, by decide, by decide, hhigh.1, by decide, by decide, by decide⟩

/-- C4 counterexample: a version-mismatched bind block received after a
b-tagged packet leaves bind_data equal to the received block, not to its
previous value, because the burst read lands directly in bind_data before
the version test; no acknowledgement is sent. -/
theorem c4_counterexample :
    (bindPacketStep bdFix 98 blkMismatch).bind_data ≠ bdFix ∧
    blkMismatch.version ≠ BINDING_VERSION ∧
    (bindPacketStep bdFix 98 blkMismatch).ackByte = none := by
  refine ⟨?_, by decide, by decide⟩
  decide

/-- C4 amended: for every received b-tagged packet, the block is read
directly into bind_data (so bind_data holds the received block whether or
not the version matches); if and only if the version equals
BINDING_VERSION is the one-byte B acknowledgement transmitted, the block
persisted via the external store, and 1 returned; on a mismatch nothing
is sent or persisted and the engine keeps listening, with bind_data
already overwritten by the received block. -/
theorem c4_theorem (bd blk : BindData) :
    ((bindPacketStep bd 98 blk).accepted = true ↔ blk.version = BINDING_VERSION) ∧
    ((bindPacketStep bd 98 blk).ackByte = some 66 ↔ blk.version = BINDING_VERSION) ∧
    ((bindPacketStep bd 98 blk).persisted = some blk ↔ blk.version = BINDING_VERSION) ∧
    (blk.version ≠ BINDING_VERSION →
      (bindPacketStep bd 98 blk).ackByte = none ∧
      (bindPacketStep bd 98 blk).persisted = none ∧
      (bindPacketStep bd 98 blk).accepted = false) ∧
    (bindPacketStep bd 98 blk).bind_data = blk := by
  by_cases h : blk.version = BINDING_VERSION <;>
    simp [bindPacketStep, h]

/-- C4 witness: the amended statement applied to the matching block,
yielding the acknowledgement, the persisted block and acceptance. -/
theorem c4_witness :
    (bindPacketStep bdFix 98 blkGood).ackByte = some 66 ∧
    (bindPacketStep bdFix 98 blkGood).persisted = some blkGood ∧
    (bindPacketStep bdFix 98 blkGood).accepted = true := by
  have h := c4_theorem bdFix blkGood
  exact ⟨h.2.1.mpr (by decide), h.2.2.1.mpr (by decide), h.1.mpr (by decide)⟩

/-- C7 counterexample: with rf_mode = Available the claim says the handler
leaves the state unchanged, but the code increments the file-scope irqs
diagnostic counter on every invocation, so the state differs. -/
theorem c7_counterexample :
    PIOS_OpenLRS_EXT_Int sAvail ≠ sAvail ∧
    (PIOS_OpenLRS_EXT_Int sAvail).rf_mode = sAvail.rf_mode ∧
    (PIOS_OpenLRS_EXT_Int sAvail).irqs = sAvail.irqs + 1 := by
  refine ⟨?_, by decide, by decide⟩
  decide

/-- C7 amended: the IRQ entry point performs no SPI access (it is a pure
state transition in this embedding) and mutates exactly two fields: it
always increments the irqs diagnostic counter, and it moves rf_mode from
Transmit to Transmitted and from Receive to Received, leaving rf_mode
unchanged for every other value; every remaining field is untouched. -/
theorem c7_theorem (s : EngineState) :
    (PIOS_OpenLRS_EXT_Int s).rf_mode =
      (if s.rf_mode = RFMode.Transmit then RFMode.Transmitted
       else if s.rf_mode = RFMode.Receive then RFMode.Received
       else s.rf_mode) ∧
    (PIOS_OpenLRS_EXT_Int s).irqs = (s.irqs + 1) % U32 ∧
    (PIOS_OpenLRS_EXT_Int s).rf_channel = s.rf_channel ∧
    (PIOS_OpenLRS_EXT_Int s).link_acquired = s.link_acquired ∧
    (PIOS_OpenLRS_EXT_Int s).bind_data = s.bind_data ∧
    (PIOS_OpenLRS_EXT_Int s).rx_buf = s.rx_buf ∧
    (PIOS_OpenLRS_EXT_Int s).ppm = s.ppm ∧
    (PIOS_OpenLRS_EXT_Int s).hopcount = s.hopcount ∧
    (PIOS_OpenLRS_EXT_Int s).lastPacketTimeUs = s.lastPacketTimeUs ∧
    (PIOS_OpenLRS_EXT_Int s).numberOfLostPackets = s.numberOfLostPackets ∧
    (PIOS_OpenLRS_EXT_Int s).linkQuality = s.linkQuality ∧
    (PIOS_OpenLRS_EXT_Int s).lastAFCCvalue = s.lastAFCCvalue ∧
    (PIOS_OpenLRS_EXT_Int s).lastRSSITimeUs = s.lastRSSITimeUs ∧
    (PIOS_OpenLRS_EXT_Int s).lastRSSIvalue = s.lastRSSIvalue ∧
    (PIOS_OpenLRS_EXT_Int s).RSSI_sum = s.RSSI_sum ∧
    (PIOS_OpenLRS_EXT_Int s).RSSI_count = s.RSSI_count ∧
    (PIOS_OpenLRS_EXT_Int s).smoothRSSI = s.smoothRSSI ∧
    (PIOS_OpenLRS_EXT_Int s).willhop = s.willhop ∧
    (PIOS_OpenLRS_EXT_Int s).linkLossTimeMs = s.linkLossTimeMs ∧
    (PIOS_OpenLRS_EXT_Int s).nextBeaconTimeMs = s.nextBeaconTimeMs := by
  cases hm : s.rf_mode <;> simp [PIOS_OpenLRS_EXT_Int, hm]

/-- C10: the modem parameter table has an in-bounds row exactly for
indices below 5; bind acceptance tests only the version byte, placing no
constraint on modem_params; and a concrete version-matching block with
modem_params = 5 is accepted while its modem table lookup (the one
getInterval and init_rfm perform) is out of bounds. -/
theorem c10_theorem :
    (∀ i : Nat, (modemParamsLookup i).isSome ↔ i < 5) ∧
    (∀ bd blk : BindData,
      (bindPacketStep bd 98 blk).accepted = true ↔ blk.version = BINDING_VERSION) ∧
    (bindPacketStep bdFix 98 blkOOB).accepted = true ∧
    (bindPacketStep bdFix 98 blkOOB).bind_data.modem_params = 5 ∧
    modemParamsLookup (bindPacketStep bdFix 98 blkOOB).bind_data.modem_params = none := by
  refine ⟨?_, ?_, by decide, by decide, by decide⟩
  · intro i
    constructor
    · intro hs
      by_contra hge
      have h5 : modem_params.length ≤ i := by
        have : modem_params.length = 5 := rfl
        omega
      rw [modemParamsLookup, List.get?_eq_none.mpr h5] at hs
      simp at hs
    · intro hlt
      interval_cases i <;> decide
  · intro bd blk
    by_cases h : blk.version = BINDING_VERSION <;> simp [bindPacketStep, h]

/-- C2: for every bind configuration with a valid modem table index,
getInterval equals the exact-arithmetic claim formula (base airtime plus
2000, plus the telemetry airtime plus 1000 when the telemetry flag is
set, rounded up to the next multiple of 1000), and consequently the
result is a multiple of 1000 microseconds and at least
bytes_to_usec(packet size, bps, diversity) + 2000. -/
theorem c2_theorem (bd : BindData) (h : bd.modem_params < 5) :
    getInterval bd = getInterval_claim bd ∧
    getInterval bd % 1000 = 0 ∧
    BYTES_AT_BAUD_TO_USEC (getPacketSize bd)
        (((modemParamsLookup bd.modem_params).map rfm22_modem_regs.bps).getD 0)
        (bd.flags &&& DIVERSITY_ENABLED) + 2000 ≤ getInterval bd := by
  rcases bd with ⟨v, sb, rfq, rm, rp, rcs, mp, fl, hc⟩
  change mp < 5 at h
  obtain ⟨k, hk, hkeq⟩ : ∃ k, k < 8 ∧ fl &&& 7 = k :=
    ⟨fl &&& 7, Nat.lt_succ_of_le Nat.and_le_right, rfl⟩
  have hb0 : ((modemParamsLookup 0).map rfm22_modem_regs.bps).getD 0 = 4800 := rfl
  have hb1 : ((modemParamsLookup 1).map rfm22_modem_regs.bps).getD 0 = 9600 := rfl
  have hb2 : ((modemParamsLookup 2).map rfm22_modem_regs.bps).getD 0 = 19200 := rfl
  have hb3 : ((modemParamsLookup 3).map rfm22_modem_regs.bps).getD 0 = 57600 := rfl
  have hb4 : ((modemParamsLookup 4).map rfm22_modem_regs.bps).getD 0 = 125000 := rfl
  interval_cases mp <;>
    simp only [getInterval, getInterval_claim, getPacketSize, BYTES_AT_BAUD_TO_USEC,
      TELEMETRY_MASK, DIVERSITY_ENABLED, TELEMETRY_PACKETSIZE, hb0, hb1, hb2, hb3, hb4] <;>
    rw [hkeq] <;>
    split_ifs <;>
    interval_cases k <;> decide

/-- C2 witness: the theorem applied to the concrete fixture (modem row 0,
flags 1), whose interval evaluates to 40000 microseconds. -/
theorem c2_witness :
    getInterval bdFix = 40000 ∧
    (getInterval bdFix = getInterval_claim bdFix ∧
     getInterval bdFix % 1000 = 0 ∧
     BYTES_AT_BAUD_TO_USEC (getPacketSize bdFix)
        (((modemParamsLookup bdFix.modem_params).map rfm22_modem_regs.bps).getD 0)
        (bdFix.flags &&& DIVERSITY_ENABLED) + 2000 ≤ getInterval bdFix) :=
  ⟨by decide, c2_theorem bdFix (by decide)⟩

theorem tw_len_le (p : Nat → Bool) (l : List Nat) : (l.takeWhile p).length ≤ l.length := by
  induction l with
  | nil => simp
  | cons a t ih =>
    rw [List.takeWhile_cons]
    by_cases hp : p a
    · simp only [hp, if_true, List.length_cons]
      exact Nat.succ_le_succ ih
    · simp only [hp, if_false, List.length_nil, List.length_cons]
      exact Nat.zero_le _

theorem tw_stop (p : Nat → Bool) (l : List Nat)
    (h : (l.takeWhile p).length < l.length) :
    p (l.getD (l.takeWhile p).length 0) = false := by
  induction l with
  | nil => simp at h
  | cons a t ih =>
    rw [List.takeWhile_cons] at h ⊢
    by_cases hp : p a
    · simp only [hp, if_true, List.length_cons] at h ⊢
      have h2 : (t.takeWhile p).length < t.length := by omega
      exact ih h2
    · simp only [hp, if_false, List.length_nil] at h ⊢
      simpa using hp

theorem countHops_le (hl : List Nat) : countHops hl ≤ MAXHOPS := by
  unfold countHops
  have h1 := tw_len_le (fun b => b != 0) (hl.take MAXHOPS)
  have h2 : (hl.take MAXHOPS).length ≤ MAXHOPS := by
    simp [List.length_take]
  omega

theorem countHops_pos (a : Nat) (t : List Nat) (ha : a ≠ 0) : 0 < countHops (a :: t) := by
  have h1 : (a :: t).take MAXHOPS = a :: t.take 23 := rfl
  unfold countHops
  rw [h1, List.takeWhile_cons]
  have h2 : (a != 0) = true := by simpa using ha
  rw [h2]
  simp

theorem countHops_stop (hl : List Nat) (hlen : hl.length = MAXHOPS)
    (hlt : countHops hl < MAXHOPS) : hl.getD (countHops hl) 0 = 0 := by
  have htake : hl.take MAXHOPS = hl := by
    rw [← hlen, List.take_length]
  unfold countHops at hlt ⊢
  rw [htake] at hlt ⊢
  have hstop := tw_stop (fun b => b != 0) hl (by omega)
  simpa using hstop

theorem hopStep_bound (s : EngineState)
    (hlen : s.bind_data.hopchannel.length = MAXHOPS)
    (hhc : s.hopcount = countHops s.bind_data.hopchannel)
    (hpos : 0 < s.hopcount)
    (hinv : s.rf_channel < s.hopcount) :
    (hopStep s).rf_channel < s.hopcount := by
  have hmax : s.hopcount ≤ MAXHOPS := hhc ▸ countHops_le _
  unfold hopStep
  split
  · show (if (s.rf_channel + 1) % 256 = MAXHOPS ∨
        s.bind_data.hopchannel.getD ((s.rf_channel + 1) % 256) 0 = 0 then 0
      else (s.rf_channel + 1) % 256) < s.hopcount
    split
    · exact hpos
    case isFalse hcond =>
      push_neg at hcond
      have hchval : (s.rf_channel + 1) % 256 = s.rf_channel + 1 :=
        Nat.mod_eq_of_lt (by simp only [MAXHOPS] at hmax; omega)
      rw [hchval] at hcond ⊢
      by_contra hge
      have heq : s.rf_channel + 1 = s.hopcount := by omega
      rcases Nat.lt_or_ge s.hopcount MAXHOPS with hlt | hge2
      · have hstop := countHops_stop s.bind_data.hopchannel hlen (hhc ▸ hlt)
        rw [← hhc] at hstop
        exact hcond.2 (heq ▸ hstop)
      · exact hcond.1 (heq.trans (Nat.le_antisymm hmax hge2))
  · exact hinv

theorem receiveStep_fields (s : EngineState) (inp : RxInput) :
    (receiveStep s inp).rf_channel = s.rf_channel ∧
    (receiveStep s inp).hopcount = s.hopcount ∧
    (receiveStep s inp).bind_data = s.bind_data := by
  unfold receiveStep
  split_ifs <;> exact ⟨rfl, rfl, rfl⟩

theorem rssiStep_fields (s : EngineState) (inp : RxInput) :
    (rssiStep s inp).rf_channel = s.rf_channel ∧
    (rssiStep s inp).hopcount = s.hopcount ∧
    (rssiStep s inp).bind_data = s.bind_data := by
  unfold rssiStep
  dsimp only
  split_ifs <;> exact ⟨rfl, rfl, rfl⟩

theorem lossStep_fields (s : EngineState) (inp : RxInput) :
    (lossStep s inp).rf_channel = s.rf_channel ∧
    (lossStep s inp).hopcount = s.hopcount ∧
    (lossStep s inp).bind_data = s.bind_data := by
  unfold lossStep
  dsimp only
  split_ifs <;> exact ⟨rfl, rfl, rfl⟩

theorem hopStep_fields (s : EngineState) :
    (hopStep s).hopcount = s.hopcount ∧
    (hopStep s).bind_data = s.bind_data := by
  unfold hopStep
  split_ifs <;> exact ⟨rfl, rfl⟩

theorem receiveStep_link (s : EngineState) (inp : RxInput) (h : s.link_acquired = true) :
    (receiveStep s inp).link_acquired = true := by
  unfold receiveStep
  split_ifs <;> first | rfl | exact h

theorem rssiStep_link (s : EngineState) (inp : RxInput) :
    (rssiStep s inp).link_acquired = s.link_acquired := by
  unfold rssiStep
  dsimp only
  split_ifs <;> rfl

theorem lossStep_link (s : EngineState) (inp : RxInput) :
    (lossStep s inp).link_acquired = s.link_acquired := by
  unfold lossStep
  dsimp only
  split_ifs <;> rfl

theorem hopStep_link (s : EngineState) :
    (hopStep s).link_acquired = s.link_acquired := by
  unfold hopStep
  split_ifs <;> rfl

/-- C5: once link_acquired is true it stays true across every scheduler
iteration (including the miss, search-mode and radio-lockup recovery
paths, none of which touch it) and across the interrupt entry point. -/
theorem c5_theorem (s : EngineState) (inp : RxInput) (h : s.link_acquired = true) :
    (rxLoopStep s inp).link_acquired = true ∧
    (PIOS_OpenLRS_EXT_Int s).link_acquired = true := by
  constructor
  · unfold rxLoopStep
    rw [hopStep_link, lossStep_link, rssiStep_link]
    exact receiveStep_link s inp h
  · unfold PIOS_OpenLRS_EXT_Int
    dsimp only
    split_ifs <;> exact h

/-- C5 witness: the theorem applied to the concrete linked state and a
miss-producing iteration input. -/
theorem c5_witness :
    (rxLoopStep sLinked inpMiss).link_acquired = true ∧
    (PIOS_OpenLRS_EXT_Int sLinked).link_acquired = true :=
  c5_theorem sLinked inpMiss (by decide)

/-- C6: with hopcount computed from the zero-terminated hop list (as
pios_openlrs_setup does) and a nonzero first hop channel, a scheduler
iteration preserves rf_channel < hopcount (the hop step wraps to 0 on
reaching MAXHOPS or a zero hop entry) and leaves hopcount unchanged;
setup itself establishes the invariant, and hopcount never exceeds
MAXHOPS. -/
theorem c6_theorem (s : EngineState) (inp : RxInput) (t : Nat)
    (hlen : s.bind_data.hopchannel.length = MAXHOPS)
    (hhc : s.hopcount = countHops s.bind_data.hopchannel)
    (h0 : s.bind_data.hopchannel.getD 0 0 ≠ 0)
    (hinv : s.rf_channel < s.hopcount) :
    (rxLoopStep s inp).rf_channel < s.hopcount ∧
    (rxLoopStep s inp).hopcount = s.hopcount ∧
    (setupStep s t).rf_channel < (setupStep s t).hopcount ∧
    s.hopcount ≤ MAXHOPS := by
  obtain ⟨a, tl, hcons⟩ : ∃ a tl, s.bind_data.hopchannel = a :: tl := by
    cases hc : s.bind_data.hopchannel with
    | nil => rw [hc] at hlen; simp [MAXHOPS] at hlen
    | cons a tl => exact ⟨a, tl, rfl⟩
  have ha : a ≠ 0 := by
    rw [hcons] at h0
    simpa using h0
  have hpos : 0 < s.hopcount := by
    rw [hhc, hcons]
    exact countHops_pos a tl ha
  set s3 := lossStep (rssiStep (receiveStep s inp) inp) inp with hs3
  have hf1 := receiveStep_fields s inp
  have hf2 := rssiStep_fields (receiveStep s inp) inp
  have hf3 := lossStep_fields (rssiStep (receiveStep s inp) inp) inp
  have hch : s3.rf_channel = s.rf_channel := by
    rw [hs3, hf3.1, hf2.1, hf1.1]
  have hhc3 : s3.hopcount = s.hopcount := by
    rw [hs3, hf3.2.1, hf2.2.1, hf1.2.1]
  have hbd3 : s3.bind_data = s.bind_data := by
    rw [hs3, hf3.2.2, hf2.2.2, hf1.2.2]
  have hbound := hopStep_bound s3
    (by rw [hbd3]; exact hlen)
    (by rw [hhc3, hbd3]; exact hhc)
    (by rw [hhc3]; exact hpos)
    (by rw [hch, hhc3]; exact hinv)
  refine ⟨?_, ?_, ?_, hhc ▸ countHops_le _⟩
  · show (hopStep s3).rf_channel < s.hopcount
    rw [← hhc3]
    exact hbound
  · show (hopStep s3).hopcount = s.hopcount
    rw [(hopStep_fields s3).1, hhc3]
  · show (0 : Nat) < countHops s.bind_data.hopchannel
    rw [hcons]
    exact countHops_pos a tl ha

/-- C6 witness: the theorem applied to the concrete linked state (three
hop channels, rf_channel 1) and a miss-producing iteration input. -/
theorem c6_witness :
    (rxLoopStep sLinked inpMiss).rf_channel < sLinked.hopcount ∧
    (rxLoopStep sLinked inpMiss).hopcount = sLinked.hopcount ∧
    (setupStep sLinked 0).rf_channel < (setupStep sLinked 0).hopcount ∧
    sLinked.hopcount ≤ MAXHOPS :=
  c6_theorem sLinked inpMiss 0 (by decide) (by decide) (by decide) (by decide)

theorem rssiStep_loss_fields (s : EngineState) (inp : RxInput) :
    (rssiStep s inp).link_acquired = s.link_acquired ∧
    (rssiStep s inp).numberOfLostPackets = s.numberOfLostPackets ∧
    (rssiStep s inp).lastPacketTimeUs = s.lastPacketTimeUs ∧
    (rssiStep s inp).linkQuality = s.linkQuality ∧
    (rssiStep s inp).bind_data = s.bind_data ∧
    (rssiStep s inp).hopcount = s.hopcount ∧
    (rssiStep s inp).linkLossTimeMs = s.linkLossTimeMs ∧
    (rssiStep s inp).willhop = s.willhop ∧
    (rssiStep s inp).nextBeaconTimeMs = s.nextBeaconTimeMs := by
  unfold rssiStep
  dsimp only
  split_ifs <;> exact ⟨rfl, rfl, rfl, rfl, rfl, rfl, rfl, rfl, rfl⟩

theorem hopStep_linkQuality (s : EngineState) : (hopStep s).linkQuality = s.linkQuality := by
  unfold hopStep
  split_ifs <;> rfl

theorem hopStep_lost (s : EngineState) :
    (hopStep s).numberOfLostPackets = s.numberOfLostPackets := by
  unfold hopStep
  split_ifs <;> rfl

theorem hopStep_lastPacketTimeUs (s : EngineState) :
    (hopStep s).lastPacketTimeUs = s.lastPacketTimeUs := by
  unfold hopStep
  split_ifs <;> rfl

theorem hopStep_linkLossTimeMs (s : EngineState) :
    (hopStep s).linkLossTimeMs = s.linkLossTimeMs := by
  unfold hopStep
  split_ifs <;> rfl

/-- C1: with the link acquired, in any scheduler iteration without a
pending received packet where fewer than hopcount packets are lost and
more than interval + 1000 microseconds have elapsed since
lastPacketTimeUs, the iteration records exactly one miss: linkQuality is
shifted left by one inserting 0, the loss counter is incremented by one,
lastPacketTimeUs advances by exactly one interval (synthetic clock), the
hop request is set (and consumed by the hop block of the same iteration),
and on the first miss linkLossTimeMs is stamped with the millisecond
clock. -/
theorem c1_theorem (s : EngineState) (inp : RxInput)
    (hla : s.link_acquired = true)
    (hmode : s.rf_mode ≠ RFMode.Received)
    (hhc : s.hopcount < 256)
    (hlost : s.numberOfLostPackets < s.hopcount)
    (helapsed : wrapSub (inp.timeUs % U32) s.lastPacketTimeUs >
      (getInterval s.bind_data + 1000) % U32) :
    (rxLoopStep s inp).linkQuality = (s.linkQuality <<< 1) % U16 ∧
    (rxLoopStep s inp).numberOfLostPackets = s.numberOfLostPackets + 1 ∧
    (rxLoopStep s inp).lastPacketTimeUs =
      (s.lastPacketTimeUs + getInterval s.bind_data) % U32 ∧
    (rxLoopStep s inp).linkLossTimeMs =
      (if s.numberOfLostPackets = 0 then inp.timeMs else s.linkLossTimeMs) ∧
    (lossStep (rssiStep (receiveStep s inp) inp) inp).willhop = true := by
  have hrs : receiveStep s inp = s := by
    unfold receiveStep
    rw [if_neg hmode]
  obtain ⟨ha1, ha2, ha3, ha4, ha5, ha6, ha7, ha8, ha9⟩ := rssiStep_loss_fields s inp
  unfold rxLoopStep
  rw [hrs]
  unfold lossStep
  dsimp only
  rw [ha1, ha2, ha3, ha4, ha5, ha6, ha7, ha9, hla]
  rw [if_pos (rfl : (true : Bool) = true)]
  rw [if_pos (And.intro hlost helapsed)]
  refine ⟨?_, ?_, ?_, ?_, ?_⟩
  · rw [hopStep_linkQuality]
  · rw [hopStep_lost]
    show (s.numberOfLostPackets + 1) % U32 = s.numberOfLostPackets + 1
    exact Nat.mod_eq_of_lt (by simp only [U32]; omega)
  · rw [hopStep_lastPacketTimeUs]
  · rw [hopStep_linkLossTimeMs]
  · rfl

/-- C1 witness: the theorem applied to the concrete linked state (loss
counter 0, hopcount 3, interval 40000) and an iteration at 50000
microseconds elapsed. -/
theorem c1_witness :
    (rxLoopStep sLinked inpMiss).linkQuality = (sLinked.linkQuality <<< 1) % U16 ∧
    (rxLoopStep sLinked inpMiss).numberOfLostPackets = sLinked.numberOfLostPackets + 1 ∧
    (rxLoopStep sLinked inpMiss).lastPacketTimeUs =
      (sLinked.lastPacketTimeUs + getInterval sLinked.bind_data) % U32 ∧
    (rxLoopStep sLinked inpMiss).linkLossTimeMs =
      (if sLinked.numberOfLostPackets = 0 then inpMiss.timeMs else sLinked.linkLossTimeMs) ∧
    (lossStep (rssiStep (receiveStep sLinked inpMiss) inpMiss) inpMiss).willhop = true :=
  c1_theorem sLinked inpMiss (by decide) (by decide) (by decide) (by decide) (by decide)

/-- C8 counterexample: at 39000 microseconds elapsed with a 40000
microsecond interval, the code takes an RSSI sample (the count increments
and the sum accumulates) even though the elapsed time is not within
interval - 1500 of the last packet time (39000 is greater than 38500, the
code samples in the tail window); and that sample is the eighth
accumulated one, yet no average is computed and smoothRSSI is unchanged
(the code averages only when the count exceeds 8, i.e. on the ninth
sample). -/
theorem c8_counterexample :
    (rxLoopStep sRssi7 inpRssi).RSSI_count = sRssi7.RSSI_count + 1 ∧
    ¬(wrapSub (inpRssi.timeUs % U32) sRssi7.lastPacketTimeUs ≤
        getInterval sRssi7.bind_data - 1500) ∧
    (rxLoopStep sRssi7 inpRssi).smoothRSSI = sRssi7.smoothRSSI ∧
    (rxLoopStep sRssi7 inpRssi).RSSI_sum = sRssi7.RSSI_sum + inpRssi.rssi := by
  decide

/-- C8 amended: RSSI is sampled exactly when lost_packets < 2, the
current lastPacketTimeUs has not been sampled yet, and MORE than
interval - 1500 microseconds have elapsed since the last packet time (the
tail window, at most once per packet interval); on the ninth accumulated
sample (count exceeding 8) the engine computes the average of the nine,
updates smoothRSSI to (3 * previous + 1 * average) / 4 and clears the
accumulator and count; otherwise it just accumulates. -/
theorem c8_theorem (s : EngineState) (inp : RxInput) (hcnt : s.RSSI_count < 255) :
    (¬(s.numberOfLostPackets < 2 ∧ s.lastRSSITimeUs ≠ s.lastPacketTimeUs ∧
        wrapSub (inp.timeUs % U32) s.lastPacketTimeUs >
          wrapSub (getInterval s.bind_data) 1500) →
      rssiStep s inp = s) ∧
    ((s.numberOfLostPackets < 2 ∧ s.lastRSSITimeUs ≠ s.lastPacketTimeUs ∧
        wrapSub (inp.timeUs % U32) s.lastPacketTimeUs >
          wrapSub (getInterval s.bind_data) 1500) →
      (rssiStep s inp).lastRSSITimeUs = s.lastPacketTimeUs ∧
      (rssiStep s inp).lastRSSIvalue = inp.rssi ∧
      (if s.RSSI_count + 1 > 8 then
        (rssiStep s inp).RSSI_sum = 0 ∧ (rssiStep s inp).RSSI_count = 0 ∧
        (rssiStep s inp).smoothRSSI =
          ((s.smoothRSSI * 3 + (((s.RSSI_sum + inp.rssi) % U16) / (s.RSSI_count + 1)) * 1) / 4) % 256
      else
        (rssiStep s inp).RSSI_sum = (s.RSSI_sum + inp.rssi) % U16 ∧
        (rssiStep s inp).RSSI_count = s.RSSI_count + 1 ∧
        (rssiStep s inp).smoothRSSI = s.smoothRSSI)) := by
  constructor
  · intro h
    unfold rssiStep
    rw [if_neg h]
  · intro hc
    have hm : (s.RSSI_count + 1) % 256 = s.RSSI_count + 1 :=
      Nat.mod_eq_of_lt (by omega)
    unfold rssiStep
    dsimp only
    rw [if_pos hc, hm]
    split_ifs with h8 <;> exact ⟨rfl, rfl, rfl, rfl, rfl⟩

/-- C8 witness: the amended theorem applied to the state holding seven
accumulated samples, showing the eighth sample accumulates without
averaging. -/
theorem c8_witness :
    (rssiStep sRssi7 inpRssi).RSSI_sum = (sRssi7.RSSI_sum + inpRssi.rssi) % U16 ∧
    (rssiStep sRssi7 inpRssi).RSSI_count = sRssi7.RSSI_count + 1 ∧
    (rssiStep sRssi7 inpRssi).smoothRSSI = sRssi7.smoothRSSI := by
  have h := (c8_theorem sRssi7 inpRssi (by decide)).2 (by decide)
  have h3 := h.2.2
  rw [if_neg (by decide)] at h3
  exact h3

end OpenLRS
